import Mathlib

/-!
Verification of the Healio web client's session orchestrator
(`client/src/ChatContext.tsx`, with its callers in
`components/chat/index.tsx` and `pages/ChatPage.tsx`).

The development shallowly embeds the client-side data model, the
server-sent-event stream decoder inside `sendMessage`, and the public
orchestrator operations.  Network collaborators are modelled by passing
each fetch's outcome as an `Option` argument (`none` = the promise
rejected); observable effects (chat requests, summary fetches,
navigations, reconciliation refetches) are recorded in instrumentation
fields of the state.  `JSON.parse` of a frame payload is modelled as an
`Option StreamEventJson` (`none` = the parse threw); the `TextDecoder`
used on raw reads is modelled by `utf8Decode` below.
-/

namespace Healio

/-- Bibliographic source attached to an evidence-backed answer
(`types.ts`, `MedicalSource`; `authors` elided as inert). -/
structure MedicalSource where
  id : String
  pmcid : String
  title : String
  deriving DecidableEq, Repr

/-- Message content payload as the client builds it: a `type` tag
(`"text"` or `"rag"`), the text, and the sources list (`[]` models an
absent `sources` field, which renders identically). -/
structure MessageContent where
  type : String
  content : String
  sources : List MedicalSource
  deriving DecidableEq, Repr

/-- Chat transcript entry (`types.ts`, `ChatMessage`).  Wall-clock
`timestamp`/`created_at` strings are elided; the `Date.now()` value used
to mint temporary ids is threaded explicitly as a `Nat`. -/
structure ChatMessage where
  id : String
  consultation_session_id : String
  sender : String
  message : MessageContent
  section' : String
  deriving DecidableEq, Repr

/-- Provider record (`types.ts`), fields beyond identity elided. -/
structure Provider where
  id : String
  name : String
  deriving DecidableEq, Repr

/-- Patient record (`types.ts`), fields beyond identity elided. -/
structure Patient where
  id : String
  name : String
  deriving DecidableEq, Repr

/-- Consultation session (`types.ts`, `ConsultationSession`). -/
structure Session where
  id : String
  patient_id : String
  provider_id : String
  status : String
  current_section : String
  deriving DecidableEq, Repr

/-- Structured summary (`types.ts`, `ConsultationSummary`), content
fields elided as inert. -/
structure Summary where
  id : String
  consultation_session_id : String
  deriving DecidableEq, Repr

/-- Ordered enumeration of consultation sections
(`types.ts`, `ConsultationSection`), in declaration order. -/
def sectionsOrder : List String :=
  ["chief_complaint", "history", "subjective", "vital_signs", "physical",
   "objective", "assessment", "plan", "doubts", "medications", "notes",
   "complete"]

/-- Index of a section value in the ordered enumeration
(`sectionsOrder.length` for a value outside the enumeration). -/
def sectionIdx (s : String) : Nat :=
  sectionsOrder.indexOf s

/-- Duck-typed message payload as received from the server: either a raw
string or an already structured object (`ChatContext.tsx`,
`transformMessage`'s input). -/
inductive RawMessage where
  | str (s : String)
  | obj (m : MessageContent)
  deriving DecidableEq, Repr

/-- `transformMessage` (`ChatContext.tsx` lines 251-259): wraps a raw
string as a text payload and passes an object through unchanged. -/
def transformMessage : RawMessage → MessageContent
  | .str s => { type := "text", content := s, sources := [] }
  | .obj m => m

/-- Parsed JSON of one stream frame (`types.ts`, `AIResponse`): a type
tag and the optional fields the stream handlers read. -/
structure StreamEventJson where
  type : String
  content : Option String
  current_section : Option String
  sources : Option (List MedicalSource)
  deriving DecidableEq, Repr

/-! ### Event-stream framing (`sendMessage`'s read loop, lines 379-395)

The loop appends each decoded read to `aiMessageBuffer`, splits the
buffer on `"\n\n"`, pops the last (possibly incomplete) part back into
the buffer, and processes each complete part that starts with
`"data: "` by parsing the text after that 6-character marker.  The
splitter is modelled on `List Char` to mirror JavaScript
`String.prototype.split` with a two-character separator (leftmost,
non-overlapping). -/

/-- Prepends a character to the first part of a split result
(used to build `splitSep` structurally). -/
def consHead (c : Char) : List (List Char) → List (List Char)
  | [] => [[c]]
  | h :: t => (c :: h) :: t

/-- JavaScript `s.split('\n\n')`: parts between leftmost
non-overlapping occurrences of the two-newline separator; always
returns at least one part. -/
def splitSep : List Char → List (List Char)
  | [] => [[]]
  | [c] => [[c]]
  | c1 :: c2 :: rest =>
    if c1 = '\n' ∧ c2 = '\n' then [] :: splitSep rest
    else consHead c1 (splitSep (c2 :: rest))

/-- All parts of a split except the last: the complete frames
(`events` after `events.pop()`). -/
def initL {α : Type} : List α → List α
  | [] => []
  | [_] => []
  | a :: b :: t => a :: initL (b :: t)

/-- Last part of a split, `[]` when empty: the retained buffer
(`aiMessageBuffer = events.pop() || ''`). -/
def lastD : List (List Char) → List Char
  | [] => []
  | [a] => a
  | _ :: b :: t => lastD (b :: t)

/-- Tests `event.startsWith('data: ')` on a frame. -/
def startsWithData : List Char → Bool
  | 'd' :: 'a' :: 't' :: 'a' :: ':' :: ' ' :: _ => true
  | _ => false

/-- Payload extraction for one complete frame: frames not starting with
`"data: "` are skipped (`continue`), otherwise the text after the
6-character marker (`event.slice(6)`) is handed to `JSON.parse`. -/
def framePayload (f : List Char) : Option (List Char) :=
  if startsWithData f then some (f.drop 6) else none

/-- One iteration of the read loop at the text level: append the chunk
to the buffer, split on the separator, keep the last part as the new
buffer, and emit the payloads of the complete frames in order. -/
def decodeStep : List Char × List (List Char) → List Char → List Char × List (List Char)
  | (buf, out), chunk =>
    let parts := splitSep (buf ++ chunk)
    (lastD parts, out ++ (initL parts).filterMap framePayload)

/-- Running the read loop over a whole sequence of text chunks,
starting from an empty buffer and no emitted payloads. -/
def decodeChunks (chunks : List (List Char)) : List Char × List (List Char) :=
  chunks.foldl decodeStep ([], [])

/-- Concatenation of a chunk sequence. -/
def flat : List (List Char) → List Char
  | [] => []
  | c :: cs => c ++ flat cs

/-- The complete-frame payloads of a whole text, in order. -/
def frames (s : List Char) : List (List Char) :=
  (initL (splitSep s)).filterMap framePayload

/-- The trailing incomplete text of a whole text: what the read loop
keeps buffered after consuming it. -/
def buffered (s : List Char) : List Char :=
  lastD (splitSep s)

/-! ### Byte-level reads

The read loop decodes every raw read with `decoder.decode(value)` —
without the streaming option — so each read is decoded as a complete
byte sequence: a multi-byte UTF-8 character cut by a read boundary is
replaced by U+FFFD on both sides instead of being buffered.
`utf8Decode` models that per-call WHATWG decode (replacement mode). -/

/-- Decoder state of the WHATWG UTF-8 decoder: continuation bytes
still needed, the code point accumulated so far, and the admissible
range for the next byte. -/
structure Utf8State where
  needed : Nat
  cp : Nat
  lower : Nat
  upper : Nat
  deriving DecidableEq, Repr

/-- Initial decoder state. -/
def utf8Start : Utf8State := { needed := 0, cp := 0, lower := 128, upper := 191 }

/-- Handling of one byte in the initial state: ASCII is emitted, a
lead byte opens a multi-byte sequence with its boundary constraints,
anything else is replaced. -/
def utf8StartByte (b : Nat) : Utf8State × List Char :=
  if b < 128 then (utf8Start, [Char.ofNat b])
  else if 194 ≤ b ∧ b ≤ 223 then
    ({ needed := 1, cp := b - 192, lower := 128, upper := 191 }, [])
  else if 224 ≤ b ∧ b ≤ 239 then
    ({ needed := 2, cp := b - 224,
       lower := if b = 224 then 160 else 128,
       upper := if b = 237 then 159 else 191 }, [])
  else if 240 ≤ b ∧ b ≤ 244 then
    ({ needed := 3, cp := b - 240,
       lower := if b = 240 then 144 else 128,
       upper := if b = 244 then 143 else 191 }, [])
  else (utf8Start, [Char.ofNat 65533])

/-- Handling of one byte in any state: an awaited continuation byte in
range extends the code point (emitting it when complete); one out of
range emits a replacement character and reprocesses the byte afresh. -/
def utf8Byte (st : Utf8State) (b : Nat) : Utf8State × List Char :=
  if st.needed = 0 then utf8StartByte b
  else if st.lower ≤ b ∧ b ≤ st.upper then
    if st.needed = 1 then (utf8Start, [Char.ofNat (st.cp * 64 + (b - 128))])
    else ({ needed := st.needed - 1, cp := st.cp * 64 + (b - 128),
            lower := 128, upper := 191 }, [])
  else
    let s2 := utf8StartByte b
    (s2.1, Char.ofNat 65533 :: s2.2)

/-- Running the byte machine over a byte sequence; a sequence left
incomplete at the end is replaced, as `decode` without the streaming
option treats its input as complete. -/
def utf8Run (st : Utf8State) : List Nat → List Char
  | [] => if st.needed = 0 then [] else [Char.ofNat 65533]
  | b :: bs =>
    let s2 := utf8Byte st b
    s2.2 ++ utf8Run s2.1 bs

/-- WHATWG UTF-8 decode with replacement, applied to one complete byte
sequence: invalid or truncated sequences become U+FFFD. -/
def utf8Decode (l : List Nat) : List Char := utf8Run utf8Start l

/-- One read-loop iteration at the byte level: the raw read is decoded
(non-streaming) and fed to the text-level step. -/
def decodeByteStep (acc : List Char × List (List Char)) (chunk : List Nat) :
    List Char × List (List Char) :=
  decodeStep acc (utf8Decode chunk)

/-- Running the read loop over a sequence of raw byte reads. -/
def decodeByteChunks (chunks : List (List Nat)) : List Char × List (List Char) :=
  chunks.foldl decodeByteStep ([], [])

/-! ### Orchestrator state (`ChatContext.tsx`, `ChatProvider`)

State owned by the provider, plus instrumentation fields recording the
observable collaborator interactions: `chatRequests` counts
`api.sendChatMessage` calls, `summaryFetches` counts
`api.getConsultationSummary` calls, `refreshCalls` counts
`refreshSession` reconciliation refetches, and `navTargets` logs
`navigate(...)` calls in order. -/

structure OrchState where
  selectedProvider : Option Provider
  selectedPatient : Option Patient
  currentSession : Option Session
  isCreatingSession : Bool
  messages : List ChatMessage
  isLoading : Bool
  currentSection : String
  summary : Option Summary
  chatRequests : Nat
  summaryFetches : Nat
  refreshCalls : Nat
  navTargets : List String
  deriving DecidableEq, Repr

/-- `resetState` (lines 537-544): clears every selection, the session,
the transcript and the summary, and returns the section pointer to the
first enumeration value. -/
def resetState (st : OrchState) : OrchState :=
  { st with
    selectedProvider := none
    selectedPatient := none
    currentSession := none
    messages := []
    summary := none
    currentSection := "chief_complaint" }

/-- Errors surfaced by `createSession`, following the spec's taxonomy:
the missing-selection throw and a rethrown collaborator failure. -/
inductive CreateError where
  | precondition
  | transport
  deriving DecidableEq, Repr

/-- `createSession` (lines 275-308).  `outcome` is
`api.createConsultation`'s result: `none` models a rejected promise.
On success the session is stored, the transcript is seeded with the
transformed `initial_message` (id `"initial"`), the section pointer is
set from the new session, and navigation to the session view is
signalled.  On failure the error is rethrown after the `finally`
clears the creating flag. -/
def createSession (st : OrchState) (outcome : Option (Session × RawMessage)) :
    Option CreateError × OrchState :=
  if st.selectedProvider = none ∨ st.selectedPatient = none then
    (some CreateError.precondition, st)
  else
    match outcome with
    | none => (some CreateError.transport, { st with isCreatingSession := false })
    | some (sess, initial) =>
      (none,
        { st with
          isCreatingSession := false
          currentSession := some sess
          messages := [{ id := "initial", consultation_session_id := sess.id,
                         sender := "ai", message := transformMessage initial,
                         section' := sess.current_section }]
          currentSection := sess.current_section
          navTargets := st.navTargets ++ ["/chat/" ++ sess.id] })

/-- `loadSession` (lines 310-330).  The three fetch outcomes are the
session by id, then the provider join, then the patient join; each
successful fetch is committed before the next is issued, and any
rejection jumps to the catch, which signals `navigate('/chat')`.  The
`finally` clears the loading flag. -/
def loadSession (st : OrchState) (sOut : Option Session) (pOut : Option Provider)
    (patOut : Option Patient) : OrchState :=
  match sOut with
  | none => { st with navTargets := st.navTargets ++ ["/chat"], isLoading := false }
  | some sess =>
    let st1 := { st with currentSession := some sess }
    match pOut with
    | none => { st1 with navTargets := st1.navTargets ++ ["/chat"], isLoading := false }
    | some prov =>
      let st2 := { st1 with selectedProvider := some prov }
      match patOut with
      | none => { st2 with navTargets := st2.navTargets ++ ["/chat"], isLoading := false }
      | some pat =>
        { st2 with
          selectedPatient := some pat
          currentSection := sess.current_section
          isLoading := false }

/-- ChatPage's route effect (`pages/ChatPage.tsx` lines 53-61): with a
session id in the URL it loads that session, and on the plain `/chat`
route it resets all orchestrator state. -/
def chatPageRouteEffect (st : OrchState) (sessionId : Option String)
    (sOut : Option Session) (pOut : Option Provider) (patOut : Option Patient) :
    OrchState :=
  match sessionId with
  | some _ => loadSession st sOut pOut patOut
  | none => resetState st

/-! ### Stream event dispatch (`sendMessage`, lines 396-440) -/

/-- The `text` handler's per-message update (lines 402-416): the
placeholder (matched by id) gets a fresh text payload whose content is
the old content plus `jsonData.content || ''`; the rebuilt object
carries no `sources` field.  Other messages are untouched. -/
def textUpdate (pid : String) (d : Option String) (m : ChatMessage) : ChatMessage :=
  if m.id = pid then
    { m with message := { type := "text",
                          content := m.message.content ++ d.getD (""),
                          sources := [] } }
  else m

/-- The `rag` handler's per-message update (lines 417-432): the
placeholder's payload is rebuilt from the event alone —
`jsonData.content || ''` and `jsonData.sources || []`. -/
def ragUpdate (pid : String) (d : Option String) (srcs : Option (List MedicalSource))
    (m : ChatMessage) : ChatMessage :=
  if m.id = pid then
    { m with message := { type := "rag",
                          content := d.getD (""),
                          sources := srcs.getD [] } }
  else m

/-- Dispatch of one parsed stream event (lines 397-436): `start` sets
the section if the event carries one; `text` and `rag` rewrite the
placeholder; `end` fires a `refreshSession` reconciliation refetch;
any other type falls through every branch and does nothing. -/
def applyStreamEvent (pid : String) (st : OrchState) (j : StreamEventJson) : OrchState :=
  if j.type = "start" then
    match j.current_section with
    | some cs => { st with currentSection := cs }
    | none => st
  else if j.type = "text" then
    { st with messages := st.messages.map (textUpdate pid j.content) }
  else if j.type = "rag" then
    { st with messages := st.messages.map (ragUpdate pid j.content j.sources) }
  else if j.type = "end" then
    { st with refreshCalls := st.refreshCalls + 1 }
  else st

/-- Processing of one complete frame's parse result (lines 393-439):
a payload whose `JSON.parse` threw is caught, logged and skipped, and
the loop continues with the next frame. -/
def applyStreamFrame (pid : String) (st : OrchState) : Option StreamEventJson → OrchState
  | none => st
  | some j => applyStreamEvent pid st j

/-- Optimistic provider message appended on submit (lines 339-349),
with id `temp-<now>`. -/
def userMessageOf (sess : Session) (text : String) (sec : String) (now : Nat) :
    ChatMessage :=
  { id := "temp-" ++ toString now, consultation_session_id := sess.id,
    sender := "provider", message := transformMessage (RawMessage.str text),
    section' := sec }

/-- Streaming placeholder AI message (lines 364-375), with id
`temp-ai-<now>` and empty text content. -/
def tempAiMessageOf (sess : Session) (sec : String) (now : Nat) : ChatMessage :=
  { id := "temp-ai-" ++ toString now, consultation_session_id := sess.id,
    sender := "ai", message := { type := "text", content := "", sources := [] },
    section' := sec }

/-- State right after the loading flag is raised, the optimistic
provider message is appended and the chat request is issued
(lines 336-352). -/
def afterRequestState (st : OrchState) (sess : Session) (text : String) (now : Nat) :
    OrchState :=
  { st with
    isLoading := true
    messages := st.messages ++ [userMessageOf sess text st.currentSection now]
    chatRequests := st.chatRequests + 1 }

/-- State right after the streaming placeholder is appended
(line 377): the placeholder is now open. -/
def openedState (st : OrchState) (sess : Session) (text : String) (now : Nat) :
    OrchState :=
  let st1 := afterRequestState st sess text now
  { st1 with messages := st1.messages ++ [tempAiMessageOf sess st.currentSection now] }

/-- All states of the read loop while the placeholder is open: the
state after each frame is applied, in order, starting from the state
in which the placeholder was just appended. -/
def streamScan (pid : String) (s : OrchState) :
    List (Option StreamEventJson) → List OrchState
  | [] => [s]
  | e :: es => s :: streamScan pid (applyStreamFrame pid s e) es

/-- Non-streaming chat reply (`types.ts` `AIResponse`, consumed at
lines 444-479): a type tag, the carried message and the new section. -/
structure JsonResponse where
  type : String
  message : MessageContent
  current_section : String
  deriving DecidableEq, Repr

/-- Shape of a chat-turn response, as distinguished by the
content-type sniff at line 355. -/
inductive ChatResponse where
  | stream (events : List (Option StreamEventJson))
  | json (r : JsonResponse)
  deriving DecidableEq, Repr

/-- AI message appended for a non-streaming reply (lines 452-460 and
468-476), with id `ai-<now>` and the response's section. -/
def aiMessageOf (sess : Session) (r : JsonResponse) (now : Nat) : ChatMessage :=
  { id := "ai-" ++ toString now, consultation_session_id := sess.id,
    sender := "ai", message := r.message, section' := r.current_section }

/-- `sendMessage` (lines 332-486), as the state reached when the call
completes.  Without a session it returns at once.  Otherwise the
optimistic message is appended and the request issued; a streaming
response opens the placeholder and folds every decoded frame over the
state, a `section_transition` document sets the section, appends the
carried message and fires a reconciliation refetch, a `follow_up`
document only appends, and any other document type does nothing.  The
`finally` clears the loading flag.  The reconciliation refetch fired
by `end`/`section_transition` resolves after this call and is modelled
separately by `applyReconcile`. -/
def sendMessage (st : OrchState) (text : String) (now : Nat) (resp : ChatResponse) :
    OrchState :=
  match st.currentSession with
  | none => st
  | some sess =>
    match resp with
    | .stream events =>
      let run := List.foldl (applyStreamFrame ("temp-ai-" ++ toString now))
        (openedState st sess text now) events
      { run with isLoading := false }
    | .json r =>
      let st1 := afterRequestState st sess text now
      if r.type = "section_transition" then
        { st1 with
          currentSection := r.current_section
          messages := st1.messages ++ [aiMessageOf sess r now]
          refreshCalls := st1.refreshCalls + 1
          isLoading := false }
      else if r.type = "follow_up" then
        { st1 with messages := st1.messages ++ [aiMessageOf sess r now],
                   isLoading := false }
      else { st1 with isLoading := false }

/-- States in which a send is in flight with an open streaming
placeholder: every suspension point of the read loop, from the moment
the placeholder is appended until the stream ends. -/
def midStreamStates (st : OrchState) (text : String) (now : Nat)
    (events : List (Option StreamEventJson)) : List OrchState :=
  match st.currentSession with
  | none => []
  | some sess =>
    streamScan ("temp-ai-" ++ toString now) (openedState st sess text now) events

/-- JavaScript `String.prototype.trim`: strips leading and trailing
whitespace. -/
def jsTrim (s : String) : String :=
  String.mk (((s.data.dropWhile Char.isWhitespace).reverse.dropWhile
    Char.isWhitespace).reverse)

/-- `ChatInput.handleSubmit` (`components/chat/index.tsx` lines
102-109), the sole caller of `sendMessage`: blank text (after trim), a
raised loading flag, or a disabled input returns without calling it. -/
def handleSubmit (st : OrchState) (text : String) (disabled : Bool) (now : Nat)
    (resp : ChatResponse) : OrchState :=
  if jsTrim text = "" ∨ st.isLoading = true ∨ disabled = true then st
  else sendMessage st text now resp

/-! ### Reconciliation and summary (`ChatContext.tsx` lines 244-273,
488-512; `pages/ChatPage.tsx` lines 64-73) -/

/-- The `currentSession` effect (lines 244-249) together with
`loadMessages` (lines 261-273), as run after the session object
changes: with a session set, the chat history is refetched — replacing
the transcript wholesale on success, leaving it untouched on a caught
failure — and the section pointer is set from the session.  The
loading flag toggled by `loadMessages` ends lowered. -/
def currentSessionEffect (st : OrchState) (hOut : Option (List ChatMessage)) :
    OrchState :=
  match st.currentSession with
  | none => st
  | some sess =>
    let st1 :=
      match hOut with
      | none => st
      | some h => { st with messages := h }
    { st1 with currentSection := sess.current_section, isLoading := false }

/-- `refreshSession` (lines 488-498): with no session it returns at
once; a failed refetch is caught and leaves the state untouched; a
successful one commits the fresh session object and its section. -/
def refreshSession (st : OrchState) (outcome : Option Session) : OrchState :=
  match st.currentSession with
  | none => st
  | some _ =>
    match outcome with
    | none => st
    | some sess =>
      { st with currentSession := some sess, currentSection := sess.current_section }

/-- A full reconciliation round: the `refreshSession` refetch, and —
only when it committed a fresh session object, which is what re-runs
the `currentSession` effect — the history reload. -/
def applyReconcile (st : OrchState) (sOut : Option Session)
    (hOut : Option (List ChatMessage)) : OrchState :=
  match st.currentSession with
  | none => st
  | some _ =>
    match sOut with
    | none => st
    | some sess =>
      currentSessionEffect
        { st with currentSession := some sess, currentSection := sess.current_section }
        hOut

/-- `loadSummary` (lines 500-512): with no session it returns at once;
otherwise it always issues the summary fetch, committing the result on
success; failures are caught.  The `finally` lowers the loading
flag. -/
def loadSummary (st : OrchState) (outcome : Option Summary) : OrchState :=
  match st.currentSession with
  | none => st
  | some _ =>
    let st1 := { st with summaryFetches := st.summaryFetches + 1 }
    match outcome with
    | none => { st1 with isLoading := false }
    | some sm => { st1 with summary := some sm, isLoading := false }

/-- Status test used by ChatPage: `currentSession.status === 'completed'`. -/
def sessionStatusCompleted (st : OrchState) : Bool :=
  match st.currentSession with
  | some s => s.status == "completed"
  | none => false

/-- ChatPage's summary-tab effect (`pages/ChatPage.tsx` lines 64-73),
the gate in front of `loadSummary`: the fetch is issued only on the
summary tab, with a session, when the section is Complete or the
session status is completed, and no summary is held yet. -/
def summaryTabEffect (st : OrchState) (activeTab : String) (outcome : Option Summary) :
    OrchState :=
  if activeTab = "summary" ∧ st.currentSession.isSome = true ∧
     (st.currentSection = "complete" ∨ sessionStatusCompleted st = true) ∧
     st.summary = none then
    loadSummary st outcome
  else st

/-! ### Runs of orchestrator operations

`Op` packages every state-changing operation reachable from the
orchestrator's public surface, each carrying its collaborator
outcomes; `applyOp` dispatches to the definitions above.  `selectProvider`
and `selectPatient` are the context's pure setters. -/

inductive Op where
  | selectProvider (p : Option Provider)
  | selectPatient (p : Option Patient)
  | create (outcome : Option (Session × RawMessage))
  | load (sOut : Option Session) (pOut : Option Provider) (patOut : Option Patient)
  | submit (text : String) (disabled : Bool) (now : Nat) (resp : ChatResponse)
  | reconcile (sOut : Option Session) (hOut : Option (List ChatMessage))
  | summaryTab (tab : String) (outcome : Option Summary)
  | reset
  deriving DecidableEq, Repr

/-- Applies one operation to the orchestrator state. -/
def applyOp (st : OrchState) : Op → OrchState
  | .selectProvider p => { st with selectedProvider := p }
  | .selectPatient p => { st with selectedPatient := p }
  | .create outcome => (createSession st outcome).2
  | .load sOut pOut patOut => loadSession st sOut pOut patOut
  | .submit text disabled now resp => handleSubmit st text disabled now resp
  | .reconcile sOut hOut => applyReconcile st sOut hOut
  | .summaryTab tab outcome => summaryTabEffect st tab outcome
  | .reset => resetState st

/-- Applies a run of operations in order. -/
def applyOps (st : OrchState) : List Op → OrchState
  | [] => st
  | op :: ops => applyOps (applyOp st op) ops

/-- Tests that a stream frame is not a `start` event carrying a
section value. -/
def frameNoSection : Option StreamEventJson → Bool
  | none => true
  | some j => !(j.type == "start") || j.current_section.isNone

/-- Tests that one operation, applied to the given state, delivers no
server-sent section change: stream `start` events carry no section, no
`section_transition` document arrives, every session object delivered
by a fetch or refresh carries the state's current section, and the
operation is not `reset`. -/
def noServerSection (st : OrchState) : Op → Bool
  | .selectProvider _ => true
  | .selectPatient _ => true
  | .create outcome =>
    match outcome with
    | none => true
    | some (sess, _) => sess.current_section == st.currentSection
  | .load sOut pOut patOut =>
    match sOut, pOut, patOut with
    | some sess, some _, some _ => sess.current_section == st.currentSection
    | _, _, _ => true
  | .submit _ _ _ resp =>
    match resp with
    | .stream events => events.all frameNoSection
    | .json r => !(r.type == "section_transition")
  | .reconcile sOut _ =>
    match sOut with
    | none => true
    | some sess => sess.current_section == st.currentSection
  | .summaryTab _ _ => true
  | .reset => false

/-- Tests `noServerSection` along a whole run, stepwise. -/
def noServerSectionRun (st : OrchState) : List Op → Bool
  | [] => true
  | op :: ops => noServerSection st op && noServerSectionRun (applyOp st op) ops

/-! ### Observation helpers -/

/-- Content of the first message with the given id, if any. -/
def contentOf (msgs : List ChatMessage) (pid : String) : Option String :=
  (msgs.find? (fun m => m.id == pid)).map (fun m => m.message.content)

/-- Whole payload of the first message with the given id, if any. -/
def payloadOf (msgs : List ChatMessage) (pid : String) : Option MessageContent :=
  (msgs.find? (fun m => m.id == pid)).map (fun m => m.message)

/-- A decoded `text` event with the given content field. -/
def textEvent (d : Option String) : StreamEventJson :=
  { type := "text", content := d, current_section := none, sources := none }

/-- A decoded `rag` event with the given content and sources fields. -/
def ragEvent (d : Option String) (srcs : Option (List MedicalSource)) :
    StreamEventJson :=
  { type := "rag", content := d, current_section := none, sources := srcs }

/-- Concatenation of a sequence of optional deltas, a missing content
field contributing the empty string. -/
def joinDeltas : List (Option String) → String
  | [] => ""
  | d :: ds => d.getD ("") ++ joinDeltas ds

/-! ### Concrete fixtures used to instantiate the theorems -/

/-- A concrete in-progress session. -/
def sampleSession : Session :=
  { id := "s1", patient_id := "p1", provider_id := "d1",
    status := "in_progress", current_section := "chief_complaint" }

/-- A concrete orchestrator state holding `sampleSession`. -/
def sampleState : OrchState :=
  { selectedProvider := some { id := "d1", name := "Dr" }
    selectedPatient := some { id := "p1", name := "Pat" }
    currentSession := some sampleSession
    isCreatingSession := false
    messages := []
    isLoading := false
    currentSection := "chief_complaint"
    summary := none
    chatRequests := 0
    summaryFetches := 0
    refreshCalls := 0
    navTargets := [] }

/-- A concrete open streaming placeholder message. -/
def samplePlaceholder : ChatMessage :=
  { id := "temp-ai-1", consultation_session_id := "s1", sender := "ai",
    message := { type := "text", content := "", sources := [] },
    section' := "chief_complaint" }

/-- `sampleState` with the placeholder in the transcript. -/
def samplePlaceholderState : OrchState :=
  { sampleState with messages := [samplePlaceholder] }

/-! ## Transcript update lemmas -/

theorem textUpdate_id (pid : String) (d : Option String) (m : ChatMessage) :
    (textUpdate pid d m).id = m.id := by
  unfold textUpdate; split <;> rfl

theorem ragUpdate_id (pid : String) (d : Option String)
    (srcs : Option (List MedicalSource)) (m : ChatMessage) :
    (ragUpdate pid d srcs m).id = m.id := by
  unfold ragUpdate; split <;> rfl

theorem contentOf_map_textUpdate (pid : String) (d : Option String) :
    ∀ (msgs : List ChatMessage) (c : String), contentOf msgs pid = some c →
      contentOf (msgs.map (textUpdate pid d)) pid = some (c ++ d.getD ("")) := by
  intro msgs
  induction msgs with
  | nil => intro c h; simp [contentOf] at h
  | cons m ms ih =>
    intro c h
    by_cases hm : m.id = pid
    · have hb : (m.id == pid) = true := by simp [hm]
      have hb2 : ((textUpdate pid d m).id == pid) = true := by
        rw [textUpdate_id]; exact hb
      rw [contentOf, @List.find?_cons_of_pos ChatMessage (fun x => x.id == pid) m ms hb] at h
      rw [List.map_cons, contentOf,
        @List.find?_cons_of_pos ChatMessage (fun x => x.id == pid) _ _ hb2]
      simp only [Option.map_some', Option.some.injEq] at h ⊢
      rw [← h, textUpdate, if_pos hm]
    · have hb : ¬((m.id == pid) = true) := by simp [hm]
      have hb2 : ¬(((textUpdate pid d m).id == pid) = true) := by
        rw [textUpdate_id]; exact hb
      rw [contentOf, @List.find?_cons_of_neg ChatMessage (fun x => x.id == pid) m ms hb] at h
      rw [List.map_cons, contentOf,
        @List.find?_cons_of_neg ChatMessage (fun x => x.id == pid) _ _ hb2]
      exact ih c h

theorem payloadOf_map_ragUpdate (pid : String) (d : Option String)
    (srcs : Option (List MedicalSource)) :
    ∀ (msgs : List ChatMessage) (mc : MessageContent), payloadOf msgs pid = some mc →
      payloadOf (msgs.map (ragUpdate pid d srcs)) pid =
        some { type := "rag", content := d.getD (""), sources := srcs.getD [] } := by
  intro msgs
  induction msgs with
  | nil => intro mc h; simp [payloadOf] at h
  | cons m ms ih =>
    intro mc h
    by_cases hm : m.id = pid
    · have hb2 : ((ragUpdate pid d srcs m).id == pid) = true := by
        rw [ragUpdate_id]; simp [hm]
      rw [List.map_cons, payloadOf,
        @List.find?_cons_of_pos ChatMessage (fun x => x.id == pid) _ _ hb2]
      simp only [Option.map_some', Option.some.injEq]
      rw [ragUpdate, if_pos hm]
    · have hb : ¬((m.id == pid) = true) := by simp [hm]
      have hb2 : ¬(((ragUpdate pid d srcs m).id == pid) = true) := by
        rw [ragUpdate_id]; exact hb
      rw [payloadOf, @List.find?_cons_of_neg ChatMessage (fun x => x.id == pid) m ms hb] at h
      rw [List.map_cons, payloadOf,
        @List.find?_cons_of_neg ChatMessage (fun x => x.id == pid) _ _ hb2]
      exact ih mc h

/-- Folding `text` events over the state, starting from any current
content of the addressed message. -/
theorem text_fold_content (pid : String) :
    ∀ (deltas : List (Option String)) (st : OrchState) (c : String),
      contentOf st.messages pid = some c →
      contentOf ((deltas.foldl (fun s d => applyStreamEvent pid s (textEvent d)) st).messages)
          pid = some (c ++ joinDeltas deltas) := by
  intro deltas
  induction deltas with
  | nil => intro st c h; simpa [joinDeltas] using h
  | cons d ds ih =>
    intro st c h
    have hstep : contentOf ((applyStreamEvent pid st (textEvent d)).messages) pid =
        some (c ++ d.getD ("")) := by
      simp only [applyStreamEvent, textEvent]
      norm_num
      exact contentOf_map_textUpdate pid d st.messages c h
    have := ih (applyStreamEvent pid st (textEvent d)) (c ++ d.getD ("")) hstep
    simpa [joinDeltas, String.append_assoc] using this

/-- C2: for every sequence of decoded `text` events applied to one open
placeholder AI message (a message whose content is still empty), the
placeholder's final content equals the concatenation of the events'
content deltas in arrival order, a missing content field contributing
the empty string. -/
theorem text_deltas_concat (st : OrchState) (pid : String)
    (deltas : List (Option String)) (h : contentOf st.messages pid = some ("")) :
    contentOf ((deltas.foldl (fun s d => applyStreamEvent pid s (textEvent d)) st).messages)
        pid = some (joinDeltas deltas) := by
  have := text_fold_content pid deltas st ("") h
  simpa using this

theorem text_deltas_concat_witness :
    contentOf samplePlaceholderState.messages ("temp-ai-1") = some ("") ∧
    contentOf (([some ("Hello "), none, some ("world")].foldl
        (fun s d => applyStreamEvent ("temp-ai-1") s (textEvent d))
        samplePlaceholderState).messages) "temp-ai-1" =
      some (joinDeltas [some ("Hello "), none, some ("world")]) :=
  ⟨by decide, text_deltas_concat samplePlaceholderState ("temp-ai-1")
    [some ("Hello "), none, some ("world")] (by decide)⟩

/-- C3: a `rag` event wholesale replaces the addressed placeholder's
payload — whatever content `mc` it held before, the payload afterwards
is rebuilt from the event's content and sources alone, so no text
accumulated from earlier `text` deltas survives. -/
theorem rag_replaces_payload (st : OrchState) (pid : String) (d : Option String)
    (srcs : Option (List MedicalSource)) (mc : MessageContent)
    (h : payloadOf st.messages pid = some mc) :
    payloadOf ((applyStreamEvent pid st (ragEvent d srcs)).messages) pid =
      some { type := "rag", content := d.getD (""), sources := srcs.getD [] } := by
  simp only [applyStreamEvent, ragEvent]
  norm_num
  exact payloadOf_map_ragUpdate pid d srcs st.messages mc h

theorem rag_replaces_payload_witness :
    payloadOf
      [{ samplePlaceholder with
         message := { type := "text", content := "partial text", sources := [] } }]
      "temp-ai-1" =
      some { type := "text", content := "partial text", sources := [] } ∧
    payloadOf ((applyStreamEvent ("temp-ai-1")
        { sampleState with
          messages := [{ samplePlaceholder with
            message := { type := "text", content := "partial text", sources := [] } }] }
        (ragEvent (some ("answer"))
          (some [{ id := "m1", pmcid := "PMC1", title := "T" }]))).messages) "temp-ai-1" =
      some { type := "rag", content := "answer",
             sources := [{ id := "m1", pmcid := "PMC1", title := "T" }] } :=
  ⟨by decide, rag_replaces_payload
    { sampleState with
      messages := [{ samplePlaceholder with
        message := { type := "text", content := "partial text", sources := [] } }] }
    "temp-ai-1" (some ("answer"))
    (some [{ id := "m1", pmcid := "PMC1", title := "T" }])
    { type := "text", content := "partial text", sources := [] } (by decide)⟩

/-- C7: a complete frame whose payload failed to parse (`none`), or
whose parsed event has a type outside the four handled ones, changes
nothing — the transcript and section state are untouched by the bad
frame — and the loop goes on to process the remaining frames exactly
as it would have without it. -/
theorem bad_frame_skipped (pid : String) (st : OrchState)
    (e : Option StreamEventJson) (rest : List (Option StreamEventJson))
    (h : e = none ∨ ∃ j, e = some j ∧ j.type ≠ "start" ∧ j.type ≠ "text" ∧
      j.type ≠ "rag" ∧ j.type ≠ "end") :
    applyStreamFrame pid st e = st ∧
    List.foldl (applyStreamFrame pid) st (e :: rest) =
      List.foldl (applyStreamFrame pid) st rest := by
  have hskip : applyStreamFrame pid st e = st := by
    rcases h with h | ⟨j, rfl, h1, h2, h3, h4⟩
    · rw [h]; rfl
    · simp [applyStreamFrame, applyStreamEvent, h1, h2, h3, h4]
  exact ⟨hskip, by rw [List.foldl_cons, hskip]⟩

theorem bad_frame_skipped_witness :
    applyStreamFrame ("temp-ai-1") samplePlaceholderState
        (some { type := "section_transition", content := none,
                current_section := some ("plan"), sources := none }) =
      samplePlaceholderState ∧
    List.foldl (applyStreamFrame ("temp-ai-1")) samplePlaceholderState
        (some { type := "section_transition", content := none,
                current_section := some ("plan"), sources := none } ::
          [some (textEvent (some ("x")))]) =
      List.foldl (applyStreamFrame ("temp-ai-1")) samplePlaceholderState
        [some (textEvent (some ("x")))] :=
  bad_frame_skipped ("temp-ai-1") samplePlaceholderState
    (some { type := "section_transition", content := none,
            current_section := some ("plan"), sources := none })
    [some (textEvent (some ("x")))]
    (Or.inr ⟨_, rfl, by decide, by decide, by decide, by decide⟩)

/-- C8: `createSession` fails with the precondition error, touching
nothing, when either selection is missing; and when both selections
are present but the creation collaborator fails, it fails with the
transport error while the selections are retained and no session,
transcript or section change is committed. -/
theorem createSession_errors (st : OrchState) (outcome : Option (Session × RawMessage)) :
    (st.selectedProvider = none ∨ st.selectedPatient = none →
      createSession st outcome = (some CreateError.precondition, st)) ∧
    (st.selectedProvider ≠ none → st.selectedPatient ≠ none → outcome = none →
      (createSession st outcome).1 = some CreateError.transport ∧
      (createSession st outcome).2.selectedProvider = st.selectedProvider ∧
      (createSession st outcome).2.selectedPatient = st.selectedPatient ∧
      (createSession st outcome).2.currentSession = st.currentSession ∧
      (createSession st outcome).2.messages = st.messages ∧
      (createSession st outcome).2.currentSection = st.currentSection) := by
  constructor
  · intro h
    unfold createSession
    rw [if_pos h]
  · intro h1 h2 hout
    subst hout
    have hcond : ¬(st.selectedProvider = none ∨ st.selectedPatient = none) := by
      tauto
    unfold createSession
    simp [hcond]

theorem createSession_errors_witness :
    createSession { sampleState with selectedProvider := none } none =
      (some CreateError.precondition, { sampleState with selectedProvider := none }) ∧
    ((createSession sampleState none).1 = some CreateError.transport ∧
      (createSession sampleState none).2.selectedProvider = sampleState.selectedProvider ∧
      (createSession sampleState none).2.selectedPatient = sampleState.selectedPatient ∧
      (createSession sampleState none).2.currentSession = sampleState.currentSession ∧
      (createSession sampleState none).2.messages = sampleState.messages ∧
      (createSession sampleState none).2.currentSection = sampleState.currentSection) :=
  ⟨(createSession_errors { sampleState with selectedProvider := none } none).1
      (Or.inl rfl),
   (createSession_errors sampleState none).2 (by decide) (by decide) rfl⟩

/-- C10: a successful reconciliation — the session refetch committing a
fresh session object, which re-runs the history load — replaces the
whole local transcript with the server's chat history, whatever
optimistic or placeholder messages it held, and commits the refetched
session and its section. -/
theorem reconcile_replaces_transcript (st : OrchState) (sess : Session)
    (h : List ChatMessage) (hs : st.currentSession.isSome = true) :
    (applyReconcile st (some sess) (some h)).messages = h ∧
    (applyReconcile st (some sess) (some h)).currentSession = some sess ∧
    (applyReconcile st (some sess) (some h)).currentSection = sess.current_section := by
  rcases hmatch : st.currentSession with _ | s
  · rw [hmatch] at hs; simp at hs
  · simp [applyReconcile, currentSessionEffect, hmatch]

theorem reconcile_replaces_transcript_witness :
    (applyReconcile samplePlaceholderState (some sampleSession) (some [])).messages
        = [] ∧
    (applyReconcile samplePlaceholderState (some sampleSession)
        (some [])).currentSession = some sampleSession ∧
    (applyReconcile samplePlaceholderState (some sampleSession)
        (some [])).currentSection = sampleSession.current_section :=
  reconcile_replaces_transcript samplePlaceholderState sampleSession [] (by decide)

/-- C4: with an active session whose current section is not Complete
and whose status is not completed, the summary-tab effect — the gate
through which `loadSummary` is invoked — does nothing: the state is
unchanged and no summary fetch is issued, whatever the active tab. -/
theorem loadSummary_not_complete_noop (st : OrchState) (tab : String)
    (outcome : Option Summary) (hs : st.currentSession.isSome = true)
    (h1 : st.currentSection ≠ "complete") (h2 : sessionStatusCompleted st = false) :
    summaryTabEffect st tab outcome = st ∧
    (summaryTabEffect st tab outcome).summaryFetches = st.summaryFetches := by
  have hcond : ¬(tab = "summary" ∧ st.currentSession.isSome = true ∧
      (st.currentSection = "complete" ∨ sessionStatusCompleted st = true) ∧
      st.summary = none) := by
    rintro ⟨-, -, hcd, -⟩
    rcases hcd with hc | hd
    · exact h1 hc
    · rw [h2] at hd; exact Bool.false_ne_true hd
  constructor
  · rw [summaryTabEffect, if_neg hcond]
  · rw [summaryTabEffect, if_neg hcond]

theorem loadSummary_not_complete_noop_witness :
    summaryTabEffect sampleState ("summary")
        (some { id := "sum1", consultation_session_id := "s1" }) = sampleState ∧
    (summaryTabEffect sampleState ("summary")
        (some { id := "sum1", consultation_session_id := "s1" })).summaryFetches =
      sampleState.summaryFetches :=
  loadSummary_not_complete_noop sampleState ("summary")
    (some { id := "sum1", consultation_session_id := "s1" })
    (by decide) (by decide) (by decide)

/-- C5: when any of `loadSession`'s fetches fails — the session fetch,
the provider join or the patient join — the operation signals
`navigate('/chat')`, and the route effect that navigation re-runs
(`resetState` on the session-less chat route) leaves no session,
provider or patient from the failed load committed. -/
theorem loadSession_failure_discards (st : OrchState) (sOut : Option Session)
    (pOut : Option Provider) (patOut : Option Patient)
    (h : sOut = none ∨ pOut = none ∨ patOut = none) :
    (loadSession st sOut pOut patOut).navTargets = st.navTargets ++ ["/chat"] ∧
    (chatPageRouteEffect (loadSession st sOut pOut patOut) none none none
        none).currentSession = none ∧
    (chatPageRouteEffect (loadSession st sOut pOut patOut) none none none
        none).selectedProvider = none ∧
    (chatPageRouteEffect (loadSession st sOut pOut patOut) none none none
        none).selectedPatient = none ∧
    (chatPageRouteEffect (loadSession st sOut pOut patOut) none none none
        none).messages = [] := by
  have hnav : (loadSession st sOut pOut patOut).navTargets =
      st.navTargets ++ ["/chat"] := by
    rcases sOut with _ | sess
    · simp [loadSession]
    · rcases pOut with _ | prov
      · simp [loadSession]
      · rcases patOut with _ | pat
        · simp [loadSession]
        · rcases h with h | h | h <;> simp at h
  exact ⟨hnav, rfl, rfl, rfl, rfl⟩

theorem loadSession_failure_discards_witness :
    (loadSession sampleState (some sampleSession) none none).navTargets =
      sampleState.navTargets ++ ["/chat"] ∧
    (chatPageRouteEffect (loadSession sampleState (some sampleSession) none none)
        none none none none).currentSession = none ∧
    (chatPageRouteEffect (loadSession sampleState (some sampleSession) none none)
        none none none none).selectedProvider = none ∧
    (chatPageRouteEffect (loadSession sampleState (some sampleSession) none none)
        none none none none).selectedPatient = none ∧
    (chatPageRouteEffect (loadSession sampleState (some sampleSession) none none)
        none none none none).messages = [] :=
  loadSession_failure_discards sampleState (some sampleSession) none none
    (Or.inr (Or.inl rfl))

/-! ## Loading-flag and section preservation lemmas -/

theorem applyStreamFrame_isLoading (pid : String) (st : OrchState)
    (e : Option StreamEventJson) :
    (applyStreamFrame pid st e).isLoading = st.isLoading := by
  rcases e with _ | j
  · rfl
  · obtain ⟨ty, co, cs, srcs⟩ := j
    simp only [applyStreamFrame, applyStreamEvent]
    rcases cs with _ | cs' <;> split_ifs <;> rfl

theorem streamScan_isLoading (pid : String) :
    ∀ (evs : List (Option StreamEventJson)) (s σ : OrchState),
      σ ∈ streamScan pid s evs → σ.isLoading = s.isLoading := by
  intro evs
  induction evs with
  | nil =>
    intro s σ h
    simp only [streamScan, List.mem_singleton] at h
    rw [h]
  | cons e es ih =>
    intro s σ h
    simp only [streamScan, List.mem_cons] at h
    rcases h with rfl | h
    · rfl
    · rw [ih _ σ h, applyStreamFrame_isLoading]

theorem openedState_isLoading (st : OrchState) (sess : Session) (text : String)
    (now : Nat) : (openedState st sess text now).isLoading = true := rfl

/-- C1: in every state in which a send is in flight with an open
streaming placeholder — any suspension point of the read loop — the
loading flag is raised, so a further send submitted through
`handleSubmit` (the sole caller of `sendMessage`) is a no-op: the state
is unchanged, the transcript length is unchanged, and no second chat
request is issued. -/
theorem sendMessage_inflight_noop (st : OrchState) (text : String) (now : Nat)
    (events : List (Option StreamEventJson)) (σ : OrchState)
    (hmem : σ ∈ midStreamStates st text now events)
    (t2 : String) (d2 : Bool) (n2 : Nat) (r2 : ChatResponse) :
    σ.isLoading = true ∧
    handleSubmit σ t2 d2 n2 r2 = σ ∧
    (handleSubmit σ t2 d2 n2 r2).messages.length = σ.messages.length ∧
    (handleSubmit σ t2 d2 n2 r2).chatRequests = σ.chatRequests := by
  have hload : σ.isLoading = true := by
    rcases hsess : st.currentSession with _ | sess
    · simp only [midStreamStates, hsess, List.not_mem_nil] at hmem
    · simp only [midStreamStates, hsess] at hmem
      rw [streamScan_isLoading _ _ _ _ hmem, openedState_isLoading]
  have hsubmit : handleSubmit σ t2 d2 n2 r2 = σ := by
    unfold handleSubmit
    rw [if_pos (Or.inr (Or.inl hload))]
  exact ⟨hload, hsubmit, by rw [hsubmit], by rw [hsubmit]⟩

theorem sendMessage_inflight_noop_witness :
    openedState sampleState sampleSession ("hi") 1 ∈
      midStreamStates sampleState ("hi") 1 [some (textEvent (some ("x")))] ∧
    ((openedState sampleState sampleSession ("hi") 1).isLoading = true ∧
      handleSubmit (openedState sampleState sampleSession ("hi") 1) ("again") false 2
          (ChatResponse.stream []) = openedState sampleState sampleSession ("hi") 1 ∧
      (handleSubmit (openedState sampleState sampleSession ("hi") 1) ("again") false 2
          (ChatResponse.stream [])).messages.length =
        (openedState sampleState sampleSession ("hi") 1).messages.length ∧
      (handleSubmit (openedState sampleState sampleSession ("hi") 1) ("again") false 2
          (ChatResponse.stream [])).chatRequests =
        (openedState sampleState sampleSession ("hi") 1).chatRequests) :=
  ⟨by decide,
   sendMessage_inflight_noop sampleState ("hi") 1 [some (textEvent (some ("x")))]
     (openedState sampleState sampleSession ("hi") 1) (by decide)
     "again" false 2 (ChatResponse.stream [])⟩

theorem stream_fold_section (pid : String) :
    ∀ (evs : List (Option StreamEventJson)) (s : OrchState),
      evs.all frameNoSection = true →
      (List.foldl (applyStreamFrame pid) s evs).currentSection = s.currentSection := by
  intro evs
  induction evs with
  | nil => intro s _; rfl
  | cons e es ih =>
    intro s h
    simp only [List.all_cons, Bool.and_eq_true] at h
    rw [List.foldl_cons, ih _ h.2]
    rcases e with _ | j
    · rfl
    · obtain ⟨ty, co, cs, srcs⟩ := j
      have hj := h.1
      simp only [applyStreamFrame, applyStreamEvent]
      split_ifs with h1 h2 h3 h4
      · have hcs : cs = none := by
          rcases hcs' : cs with _ | c
          · rfl
          · exfalso
            simp only [frameNoSection, hcs', h1] at hj
            simp at hj
        rw [hcs]
      · rfl
      · rfl
      · rfl
      · rfl

theorem applyOp_section_eq (st : OrchState) (op : Op)
    (h : noServerSection st op = true) :
    (applyOp st op).currentSection = st.currentSection := by
  cases op with
  | selectProvider p => rfl
  | selectPatient p => rfl
  | create outcome =>
    rcases outcome with _ | ⟨sess, raw⟩
    · simp only [applyOp]
      unfold createSession
      split_ifs <;> rfl
    · simp only [noServerSection, beq_iff_eq] at h
      simp only [applyOp]
      unfold createSession
      split_ifs
      · rfl
      · simpa using h
  | load sOut pOut patOut =>
    rcases sOut with _ | sess
    · simp [applyOp, loadSession]
    · rcases pOut with _ | prov
      · simp [applyOp, loadSession]
      · rcases patOut with _ | pat
        · simp [applyOp, loadSession]
        · simp only [noServerSection, beq_iff_eq] at h
          simp [applyOp, loadSession, h]
  | submit text disabled now resp =>
    simp only [applyOp]
    unfold handleSubmit
    split_ifs with hg
    · rfl
    · rcases hsess : st.currentSession with _ | sess
      · simp [sendMessage, hsess]
      · rcases resp with events | r
        · simp only [noServerSection] at h
          simp only [sendMessage, hsess]
          exact stream_fold_section _ events _ h
        · have hr : ¬(r.type = "section_transition") := by
            simp only [noServerSection] at h
            simpa using h
          simp only [sendMessage, hsess]
          split_ifs <;> rfl
  | reconcile sOut hOut =>
    rcases hsess : st.currentSession with _ | s0
    · simp [applyOp, applyReconcile, hsess]
    · rcases sOut with _ | sess
      · simp [applyOp, applyReconcile, hsess]
      · simp only [noServerSection, beq_iff_eq] at h
        rcases hOut with _ | hist <;>
          simp [applyOp, applyReconcile, currentSessionEffect, hsess, h]
  | summaryTab tab outcome =>
    simp only [applyOp]
    unfold summaryTabEffect
    split_ifs with hc
    · unfold loadSummary
      rcases hsess : st.currentSession with _ | s0
      · rfl
      · rcases outcome with _ | sm <;> rfl
    · rfl
  | reset => simp [noServerSection] at h

theorem applyOps_section_eq :
    ∀ (ops : List Op) (st : OrchState), noServerSectionRun st ops = true →
      (applyOps st ops).currentSection = st.currentSection := by
  intro ops
  induction ops with
  | nil => intro st _; rfl
  | cons op rest ih =>
    intro st h
    simp only [noServerSectionRun, Bool.and_eq_true] at h
    rw [applyOps, ih _ h.2, applyOp_section_eq st op h.1]

/-- C9 (amended): along every run of orchestrator operations in which
no server-sent section arrives — stream `start` events carry no
section, no `section_transition` document arrives, every fetched or
refreshed session carries the current section — and which contains no
`reset`, the index of the current section in the ordered enumeration
never decreases (local code other than `reset` never changes it at
all). -/
theorem section_monotone_without_server (st : OrchState) (ops : List Op)
    (h : noServerSectionRun st ops = true) :
    sectionIdx st.currentSection ≤ sectionIdx (applyOps st ops).currentSection := by
  rw [applyOps_section_eq ops st h]

theorem section_monotone_without_server_witness :
    noServerSectionRun sampleState
        [Op.selectProvider (some { id := "d2", name := "Dr2" }),
         Op.submit ("hello") false 3 (ChatResponse.stream
           [some (textEvent (some ("hi"))),
            some { type := "end", content := none, current_section := none,
                   sources := none }]),
         Op.reconcile (some sampleSession) (some []),
         Op.summaryTab ("conversation") none] = true ∧
    sectionIdx sampleState.currentSection ≤
      sectionIdx (applyOps sampleState
        [Op.selectProvider (some { id := "d2", name := "Dr2" }),
         Op.submit ("hello") false 3 (ChatResponse.stream
           [some (textEvent (some ("hi"))),
            some { type := "end", content := none, current_section := none,
                   sources := none }]),
         Op.reconcile (some sampleSession) (some []),
         Op.summaryTab ("conversation") none]).currentSection :=
  ⟨by decide,
   section_monotone_without_server sampleState
     [Op.selectProvider (some { id := "d2", name := "Dr2" }),
      Op.submit ("hello") false 3 (ChatResponse.stream
        [some (textEvent (some ("hi"))),
         some { type := "end", content := none, current_section := none,
                sources := none }]),
      Op.reconcile (some sampleSession) (some []),
      Op.summaryTab ("conversation") none] (by decide)⟩

/-- C9 counterexample: `resetState` is local code — no server-sent
section is involved anywhere — and applying it in a state whose
section is `history` strictly decreases the section index, from 1 back
to 0 (`chief_complaint`).  The claim that local code never decreases
the section index is therefore false as stated; `reset` is the one
exception. -/
theorem reset_decreases_section :
    sectionIdx ((applyOp { sampleState with currentSection := "history" }
        Op.reset).currentSection) <
      sectionIdx ({ sampleState with currentSection := "history" } :
        OrchState).currentSection := by
  decide

/-! ## Stream framing: chunking invariance and its byte-level failure -/

theorem consHead_ne_nil (c : Char) (l : List (List Char)) : consHead c l ≠ [] := by
  cases l <;> simp [consHead]

theorem splitSep_ne_nil : ∀ s : List Char, splitSep s ≠ [] := by
  intro s
  rcases s with _ | ⟨c1, _ | ⟨c2, rest⟩⟩
  · simp [splitSep]
  · simp [splitSep]
  · simp only [splitSep]
    split
    · simp
    · exact consHead_ne_nil _ _

theorem initL_cons_of_ne_nil {α : Type} (a : α) (l : List α) (h : l ≠ []) :
    initL (a :: l) = a :: initL l := by
  rcases l with _ | ⟨b, t⟩
  · exact absurd rfl h
  · rfl

theorem lastD_cons_of_ne_nil (a : List Char) (l : List (List Char)) (h : l ≠ []) :
    lastD (a :: l) = lastD l := by
  rcases l with _ | ⟨b, t⟩
  · exact absurd rfl h
  · rfl

theorem initL_append {α : Type} : ∀ (A B : List α), B ≠ [] →
    initL (A ++ B) = A ++ initL B := by
  intro A
  induction A with
  | nil => intro B h; simp
  | cons a A2 ih =>
    intro B h
    have hne : A2 ++ B ≠ [] := by
      intro hc
      exact h (List.append_eq_nil.mp hc).2
    rw [List.cons_append, initL_cons_of_ne_nil a _ hne, ih B h, List.cons_append]

theorem lastD_append : ∀ (A B : List (List Char)), B ≠ [] →
    lastD (A ++ B) = lastD B := by
  intro A
  induction A with
  | nil => intro B h; simp
  | cons a A2 ih =>
    intro B h
    have hne : A2 ++ B ≠ [] := by
      intro hc
      exact h (List.append_eq_nil.mp hc).2
    rw [List.cons_append, lastD_cons_of_ne_nil a _ hne, ih B h]

theorem splitSep_single_head (c : Char) (rest : List Char) (h : List Char)
    (hs : splitSep (c :: rest) = [h]) : ∃ h2, h = c :: h2 := by
  rcases rest with _ | ⟨c2, rest2⟩
  · simp only [splitSep] at hs
    injection hs with h1 h2
    exact ⟨[], h1.symm⟩
  · simp only [splitSep] at hs
    split at hs
    · injection hs with h1 h2
      exact absurd h2 (splitSep_ne_nil rest2)
    · rcases hL : splitSep (c2 :: rest2) with _ | ⟨x, xs⟩
      · exact absurd hL (splitSep_ne_nil _)
      · rw [hL] at hs
        simp only [consHead] at hs
        injection hs with h1 h2
        exact ⟨x, h1.symm⟩

/-- Splitting a text extended by more input: the complete parts so far
are final, and the retained last part is what the new input extends —
exactly the invariant behind `aiMessageBuffer`. -/
theorem splitSep_append : ∀ (s cs : List Char),
    splitSep (s ++ cs) = initL (splitSep s) ++ splitSep (lastD (splitSep s) ++ cs) := by
  intro s
  induction s using splitSep.induct with
  | case1 =>
    intro cs
    simp [splitSep, initL, lastD]
  | case2 c =>
    intro cs
    simp [splitSep, initL, lastD]
  | case3 c1 c2 rest hcond ih =>
    intro cs
    obtain ⟨h1, h2⟩ := hcond
    subst h1; subst h2
    have hne := splitSep_ne_nil rest
    have lhs : ((Char.ofNat 10 :: Char.ofNat 10 :: rest) ++ cs) =
        Char.ofNat 10 :: Char.ofNat 10 :: (rest ++ cs) := rfl
    have e1 : splitSep (Char.ofNat 10 :: Char.ofNat 10 :: (rest ++ cs)) =
        [] :: splitSep (rest ++ cs) := by
      simp [splitSep]
    have e2 : splitSep (Char.ofNat 10 :: Char.ofNat 10 :: rest) =
        [] :: splitSep rest := by
      simp [splitSep]
    rw [lhs, e1, e2, initL_cons_of_ne_nil [] _ hne, lastD_cons_of_ne_nil [] _ hne,
      List.cons_append, ih cs]
  | case4 c1 c2 rest hcond ih =>
    intro cs
    have hL := splitSep_ne_nil (c2 :: rest)
    have lhs : ((c1 :: c2 :: rest) ++ cs) = c1 :: c2 :: (rest ++ cs) := rfl
    have e1 : splitSep (c1 :: c2 :: (rest ++ cs)) =
        consHead c1 (splitSep (c2 :: (rest ++ cs))) := by
      simp only [splitSep]
      rw [if_neg hcond]
    have e2 : splitSep (c1 :: c2 :: rest) = consHead c1 (splitSep (c2 :: rest)) := by
      simp only [splitSep]
      rw [if_neg hcond]
    have lhs2 : (c2 :: (rest ++ cs)) = (c2 :: rest) ++ cs := rfl
    rw [lhs, e1, e2, lhs2, ih cs]
    rcases hsplit : splitSep (c2 :: rest) with _ | ⟨x, xs⟩
    · exact absurd hsplit hL
    · rcases xs with _ | ⟨y, ys⟩
      · obtain ⟨x2, hx⟩ := splitSep_single_head c2 rest x hsplit
        subst hx
        simp only [consHead, initL, lastD, List.nil_append]
        have e3 : ((c1 :: c2 :: x2) ++ cs) = c1 :: c2 :: (x2 ++ cs) := rfl
        have e4 : ((c2 :: x2) ++ cs) = c2 :: (x2 ++ cs) := rfl
        have e5 : splitSep (c1 :: c2 :: (x2 ++ cs)) =
            consHead c1 (splitSep (c2 :: (x2 ++ cs))) := by
          simp only [splitSep]
          rw [if_neg hcond]
        rw [e3, e4, e5]
        rfl
      · simp [consHead, initL, lastD, List.cons_append]

/-- One read-loop iteration keeps the frames/buffer decomposition of
the text consumed so far. -/
theorem decodeStep_frames (s cs : List Char) :
    decodeStep (buffered s, frames s) cs = (buffered (s ++ cs), frames (s ++ cs)) := by
  have hkey := splitSep_append s cs
  have hne := splitSep_ne_nil (lastD (splitSep s) ++ cs)
  simp only [decodeStep, buffered, frames]
  rw [hkey, initL_append _ _ hne, lastD_append _ _ hne, List.filterMap_append]

/-- The whole read loop emits exactly the frames of the text consumed
so far and retains its trailing incomplete part. -/
theorem decodeFold_frames : ∀ (chunks : List (List Char)) (s : List Char),
    List.foldl decodeStep (buffered s, frames s) chunks =
      (buffered (s ++ flat chunks), frames (s ++ flat chunks)) := by
  intro chunks
  induction chunks with
  | nil => intro s; simp [flat]
  | cons c cs2 ih =>
    intro s
    rw [List.foldl_cons, decodeStep_frames s c, ih (s ++ c)]
    simp [flat, List.append_assoc]

/-- C6 (amended): at the text level — for every way the decoded text
is split into reads, i.e. for every chunking that does not cut a
multi-byte UTF-8 character — the read loop emits exactly the payloads
of the complete blank-line-terminated frames, in arrival order,
buffering the trailing incomplete text across reads: the emitted
payload sequence and final buffer are those of the unchunked text.  A
frame is consumed as a whole: it is processed only when the whole
frame starts with `data: `, with the remainder after those six
characters as its payload. -/
theorem decode_chunks_chunking_invariant (chunks : List (List Char)) :
    decodeChunks chunks = decodeChunks [flat chunks] := by
  have h1 := decodeFold_frames chunks []
  have h2 := decodeFold_frames [flat chunks] []
  simp only [List.nil_append] at h1 h2
  unfold decodeChunks
  have h0 : ((([] : List Char), ([] : List (List Char)))) = (buffered [], frames []) := rfl
  rw [h0, h1, h2]
  simp [flat]

/-- C6 counterexample: the claim fails at the byte level, and its
record description does not match the code.  First, the UTF-8 bytes of
`data: é\n\n` decoded as one read yield the payload `é`, but split
between the two bytes of `é` they yield `\uFFFD\uFFFD` — each read is
decoded without streaming state, so the decoded event sequence depends
on the chunking.  Second, the record `retry: 5\ndata: X\n\n` — a
non-`data:` line followed by a `data:` line — emits no payload at all:
the code tests `data: ` on the whole frame and drops it, rather than
ignoring the non-`data:` line and processing the rest. -/
theorem stream_chunking_dependent :
    (decodeByteChunks [[100, 97, 116, 97, 58, 32, 195, 169, 10, 10]]).2 ≠
      (decodeByteChunks [[100, 97, 116, 97, 58, 32, 195], [169, 10, 10]]).2 ∧
    (decodeChunks [String.toList ("retry: 5\ndata: X\n\n")]).2 = [] := by
  refine ⟨by decide, by decide⟩

end Healio
